import Mathlib

/-!
Verification development for the chaincode lifecycle engine
(`core/chaincode/lifecycle/lifecycle.go`): the namespace-definition
lifecycle and multi-organization agreement protocol.

The lifecycle operations (`CommitChaincodeDefinition`,
`ApproveChaincodeDefinitionForOrg`, `QueryChaincodeDefinition`,
`QueryNamespaceDefinitions`, `InstallChaincode`,
`ChaincodeDefinitionIfDefined`) are translated directly from the Go
source.  The record codec ("Serializer"), the package store and the
package parser are external collaborators whose code is not part of this
repository; they are modelled from the specification's external interface
contract.  Mutation of a state view is embedded as explicit state
passing: each operation returns its result together with the final state
of every view it may write to; a view that is only read is not returned.

Machine `int64` values (the `Sequence` field) are embedded as `Int`;
overflow of `currentSequence + 1` is not modelled, as no behaviour
relevant to the specification depends on it.
-/

namespace Lifecycle

/-- Endorsement half of the chaincode parameters
(`lb.ChaincodeEndorsementInfo`). -/
structure ChaincodeEndorsementInfo where
  Version : String
  EndorsementPlugin : String
  InitRequired : Bool
deriving DecidableEq, Repr

/-- Validation half of the chaincode parameters
(`lb.ChaincodeValidationInfo`); `ValidationParameter` is an opaque byte
string, embedded as a list of bytes. -/
structure ChaincodeValidationInfo where
  ValidationPlugin : String
  ValidationParameter : List Nat
deriving DecidableEq, Repr

/-- One private-data collection definition
(an element of `cb.CollectionConfigPackage`); compared by deep structural
equality (`proto.Equal`). -/
structure StaticCollectionConfig where
  Name : String
  RequiredPeerCount : Int
  MaximumPeerCount : Int
  BlockToLive : Nat
deriving DecidableEq, Repr

/-- `*cb.CollectionConfigPackage`: a possibly-nil pointer to a package of
collection definitions.  `none` embeds the nil pointer. -/
abbrev CollectionConfigPackage := Option (List StaticCollectionConfig)

/-- `ChaincodeParameters`: the versionable, comparable part of a
definition (endorsement info, validation info, collections). -/
structure ChaincodeParameters where
  EndorsementInfo : ChaincodeEndorsementInfo
  ValidationInfo : ChaincodeValidationInfo
  Collections : CollectionConfigPackage
deriving DecidableEq, Repr

/-- `ChaincodeDefinition`: the chaincode parameters plus the sequence
number of the definition (flat, not embedding `ChaincodeParameters`). -/
structure ChaincodeDefinition where
  Sequence : Int
  EndorsementInfo : ChaincodeEndorsementInfo
  ValidationInfo : ChaincodeValidationInfo
  Collections : CollectionConfigPackage
deriving DecidableEq, Repr

/-- `ChaincodeLocalPackage`: the content hash of a locally installed
package, stored in an org's private scope. -/
structure ChaincodeLocalPackage where
  Hash : List Nat
deriving DecidableEq, Repr

/-- `NamespacesName`: prefix of the DB namespace holding namespace
definitions. -/
def NamespacesName : String := "namespaces"

/-- `ChaincodeSourcesName`: DB namespace recording where to find the
chaincode package (org implicit collection only). -/
def ChaincodeSourcesName : String := "chaincode-sources"

/-- `ChaincodeDefinitionType`: the type tag used to store defined
chaincodes. -/
def ChaincodeDefinitionType : String := "ChaincodeDefinition"

/-- `FriendlyChaincodeDefinitionType`: the name exposed to the outside
world for the chaincode namespace. -/
def FriendlyChaincodeDefinitionType : String := "Chaincode"

/-- Modelled from the spec: `LifecycleNamespace`, the reserved system
namespace name (defined outside this source file; §4.1 "Reserved system
namespace name short-circuits to a synthetic definition"). -/
def LifecycleNamespace : String := "_lifecycle"

/-- `ChaincodeParameters.Equal`: field-by-field comparison of two
parameter records, reporting the first mismatching field; note that
`InitRequired` is not compared.  The Go `switch` of guard cases is
embedded as a chain of conditionals in the same order. -/
def ChaincodeParameters.Equal (cp ocp : ChaincodeParameters) :
    Except String Unit :=
  if cp.EndorsementInfo.Version ≠ ocp.EndorsementInfo.Version then
    .error "Version mismatch"
  else if cp.EndorsementInfo.EndorsementPlugin ≠ ocp.EndorsementInfo.EndorsementPlugin then
    .error "EndorsementPlugin mismatch"
  else if cp.ValidationInfo.ValidationPlugin ≠ ocp.ValidationInfo.ValidationPlugin then
    .error "ValidationPlugin mismatch"
  else if cp.ValidationInfo.ValidationParameter ≠ ocp.ValidationInfo.ValidationParameter then
    .error "ValidationParameter mismatch"
  else if cp.Collections ≠ ocp.Collections then
    .error "Collections do not match"
  else
    .ok ()

/-- `ChaincodeDefinition.Parameters`: the non-sequence info of the
chaincode definition. -/
def ChaincodeDefinition.Parameters (cd : ChaincodeDefinition) :
    ChaincodeParameters :=
  { EndorsementInfo := cd.EndorsementInfo
    ValidationInfo := cd.ValidationInfo
    Collections := cd.Collections }

/-- Modelled from the spec: one record stored by the codec at a
`(namespace, key)` slot.  The codec encodes a record as a metadata entry
(carrying a type tag) plus per-field entries; the extra constructors
embed the partially-present or undecodable layouts that give the codec
its failure modes (§7 storage/codec errors):
`corruptMeta` — neither metadata nor fields decode;
`corruptDefn` — metadata decodes as a chaincode definition and the
`Sequence` field decodes, but the full record does not;
`corruptMetaGoodSeq` — metadata does not decode but the `Sequence` field
does; `fieldsOnly` — no metadata entry exists but the `Sequence` field
does. -/
inductive StoredRecord where
  | params (p : ChaincodeParameters)
  | defn (d : ChaincodeDefinition)
  | localPkg (pkg : ChaincodeLocalPackage)
  | other (tag : String)
  | corruptMeta
  | corruptDefn (seq : Int)
  | corruptMetaGoodSeq (seq : Int)
  | fieldsOnly (seq : Int)
deriving DecidableEq, Repr

/-- Modelled from the spec: the metadata (type tag) the codec reports for
a stored record; `.ok none` is absence, `.error` an undecodable
metadata entry. -/
def StoredRecord.metadataOf : StoredRecord → Except String (Option String)
  | .params _ => .ok (some "ChaincodeParameters")
  | .defn _ => .ok (some "ChaincodeDefinition")
  | .localPkg _ => .ok (some "ChaincodeLocalPackage")
  | .other tag => .ok (some tag)
  | .corruptMeta => .error "could not unmarshal metadata"
  | .corruptDefn _ => .ok (some "ChaincodeDefinition")
  | .corruptMetaGoodSeq _ => .error "could not unmarshal metadata"
  | .fieldsOnly _ => .ok none

/-- Modelled from the spec: the value of a record's `Sequence` field as
the codec reads it (`DeserializeFieldAsInt64` on one record); a record
without that field reads as the absent value 0. -/
def StoredRecord.seqFieldOf : StoredRecord → Except String Int
  | .params _ => .ok 0
  | .defn d => .ok d.Sequence
  | .localPkg _ => .ok 0
  | .other _ => .ok 0
  | .corruptMeta => .error "could not unmarshal field as int64"
  | .corruptDefn seq => .ok seq
  | .corruptMetaGoodSeq seq => .ok seq
  | .fieldsOnly seq => .ok seq

/-- Modelled from the spec: a transaction-scoped state view.  `entries`
associates a `(namespace, key)` slot to the record stored there (first
binding wins); `failWrites` lists the slots on which a write fails
(§7: storage write failures are propagated, not retried). -/
structure LState where
  entries : List ((String × String) × StoredRecord)
  failWrites : List (String × String)
deriving DecidableEq, Repr

/-- Modelled from the spec: read the record stored at `(ns, key)`. -/
def LState.lookup (st : LState) (ns key : String) : Option StoredRecord :=
  (st.entries.find? (fun e => e.1 = (ns, key))).map (·.2)

/-- Modelled from the spec: store a record at `(ns, key)`, overwriting
any prior record at that slot. -/
def LState.set (st : LState) (ns key : String) (r : StoredRecord) : LState :=
  { st with entries := ((ns, key), r) :: st.entries.filter (fun e => e.1 ≠ (ns, key)) }

/-- Modelled from the spec: `Serializer.DeserializeMetadata` — the type
tag stored at `(ns, key)` and whether the slot is populated. -/
def Serializer.DeserializeMetadata (ns key : String) (st : LState) :
    Except String (Option String) :=
  match st.lookup ns key with
  | none => .ok none
  | some r => r.metadataOf

/-- Modelled from the spec: `Serializer.DeserializeFieldAsInt64` for the
`Sequence` field — a deterministic, pre-typed int64 field, defaulting to
0 when absent.  Only the `Sequence` field is ever read this way. -/
def Serializer.DeserializeFieldAsInt64 (ns key _fieldName : String) (st : LState) :
    Except String Int :=
  match st.lookup ns key with
  | none => .ok 0
  | some r => r.seqFieldOf

/-- Modelled from the spec: `Serializer.Deserialize` into a
`ChaincodeDefinition`, given previously fetched metadata; fails when the
type tag disagrees or the stored fields do not decode as a definition. -/
def Serializer.DeserializeDefinition (ns key : String) (metadata : String)
    (st : LState) : Except String ChaincodeDefinition :=
  if metadata ≠ ChaincodeDefinitionType then
    .error "type tag does not match ChaincodeDefinition"
  else
    match st.lookup ns key with
    | some (.defn d) => .ok d
    | _ => .error "could not decode stored fields as ChaincodeDefinition"

/-- Modelled from the spec: `Serializer.IsSerialized` — test whether the
record stored at `(ns, key)` exactly equals the candidate
`ChaincodeParameters` without fully materializing it.  Absence, a
decode failure and a type mismatch are read failures. -/
def Serializer.IsSerialized (ns key : String) (cp : ChaincodeParameters)
    (st : LState) : Except String Bool :=
  match st.lookup ns key with
  | none => .error "no existing serialized message found"
  | some (.params p) => .ok (p = cp)
  | some _ => .error "stored record is not ChaincodeParameters"

/-- Modelled from the spec: `Serializer.Serialize` — write a record to
`(ns, key)`, replacing whatever was there; a storage write failure on
that slot is propagated. -/
def Serializer.Serialize (ns key : String) (r : StoredRecord) (st : LState) :
    Except String LState :=
  if (ns, key) ∈ st.failWrites then
    .error "state write failed"
  else
    .ok (st.set ns key r)

/-- Modelled from the spec: enumerate the metadata entries under a DB
namespace in entry order, first binding per key, skipping slots with no
metadata entry; an undecodable metadata entry fails the enumeration. -/
def collectMetadata (target : String) (seen : List String) :
    List ((String × String) × StoredRecord) → Except String (List (String × String))
  | [] => .ok []
  | ((ns, key), r) :: rest =>
    if ns = target ∧ key ∉ seen then
      match r.metadataOf with
      | .error e => .error e
      | .ok none => collectMetadata target (key :: seen) rest
      | .ok (some tag) =>
        match collectMetadata target (key :: seen) rest with
        | .error e => .error e
        | .ok tl => .ok ((key, tag) :: tl)
    else
      collectMetadata target seen rest

/-- Modelled from the spec: `Serializer.DeserializeAllMetadata` — a range
scan over all metadata entries sharing a DB namespace. -/
def Serializer.DeserializeAllMetadata (ns : String) (st : LState) :
    Except String (List (String × String)) :=
  collectMetadata ns [] st.entries

/-- `Resources.ChaincodeDefinitionIfDefined`: whether `chaincodeName` is
defined in the lifecycle, returning its definition when it is.  The Go
signature `(bool, *ChaincodeDefinition, error)` is embedded as
`Except String (Bool × Option ChaincodeDefinition)`; every error return
in the source carries `(false, nil)`. -/
def Resources.ChaincodeDefinitionIfDefined (chaincodeName : String)
    (state : LState) : Except String (Bool × Option ChaincodeDefinition) :=
  if chaincodeName = LifecycleNamespace then
    .ok (true, some
      { Sequence := 0
        EndorsementInfo :=
          { Version := "", EndorsementPlugin := "", InitRequired := false }
        ValidationInfo := { ValidationPlugin := "", ValidationParameter := [] }
        Collections := none })
  else
    match Serializer.DeserializeMetadata NamespacesName chaincodeName state with
    | .error e => .error ("could not deserialize metadata for chaincode: " ++ e)
    | .ok none => .ok (false, none)
    | .ok (some tag) =>
      if tag ≠ ChaincodeDefinitionType then
        .error ("not a chaincode type: " ++ tag)
      else
        match Serializer.DeserializeDefinition NamespacesName chaincodeName tag state with
        | .error e =>
          .error ("could not deserialize chaincode definition for chaincode: " ++ e)
        | .ok d => .ok (true, some d)

/-- The private-scope key `name#sequence`. -/
def privateKey (name : String) (seq : Int) : String :=
  name ++ "#" ++ toString seq

/-- `ExternalFunctions.CommitChaincodeDefinition`: check that the
definition's sequence number is the next allowable sequence number,
compute which organizations agree with the definition, and apply the
definition to the public world state.  Returns the result paired with
the final public state (org states are only read). -/
def ExternalFunctions.CommitChaincodeDefinition (name : String)
    (cd : ChaincodeDefinition) (publicState : LState)
    (orgStates : List LState) : Except String (List Bool) × LState :=
  match Serializer.DeserializeFieldAsInt64 NamespacesName name "Sequence" publicState with
  | .error e => (.error ("could not get current sequence: " ++ e), publicState)
  | .ok currentSequence =>
    if cd.Sequence ≠ currentSequence + 1 then
      (.error ("requested sequence is " ++ toString cd.Sequence
        ++ ", but new definition must be sequence "
        ++ toString (currentSequence + 1)), publicState)
    else
      let privateName := privateKey name cd.Sequence
      let agreement := orgStates.map (fun orgState =>
        match Serializer.IsSerialized NamespacesName privateName cd.Parameters orgState with
        | .ok m => m
        | .error _ => false)
      match Serializer.Serialize NamespacesName name (.defn cd) publicState with
      | .error e =>
        (.error ("could not serialize chaincode definition: " ++ e), publicState)
      | .ok st => (.ok agreement, st)

/-- The write phase of `ExternalFunctions.ApproveChaincodeDefinitionForOrg`
(the Go function's tail after validation): write the chaincode parameters
to the org's private scope at `name#requestedSequence` and, when a
package hash is supplied, the local-package record at the same key in the
chaincode-sources scope.  A failure of the second write still returns the
state produced by the first. -/
def ExternalFunctions.approveOrgWrites (name : String) (cd : ChaincodeDefinition)
    (localPackageHash : Option (List Nat)) (orgState : LState) :
    Except String Unit × LState :=
  match Serializer.Serialize NamespacesName (privateKey name cd.Sequence)
      (.params cd.Parameters) orgState with
  | .error e =>
    (.error ("could not serialize chaincode parameters to state: " ++ e), orgState)
  | .ok org1 =>
    match localPackageHash with
    | none => (.ok (), org1)
    | some h =>
      match Serializer.Serialize ChaincodeSourcesName (privateKey name cd.Sequence)
          (.localPkg { Hash := h }) org1 with
      | .error e =>
        (.error ("could not serialize chaincode package info to state: " ++ e), org1)
      | .ok org2 => (.ok (), org2)

/-- `ExternalFunctions.ApproveChaincodeDefinitionForOrg`: add a chaincode
definition entry into the passed-in org state.  The definition must be
for either the currently defined sequence number or the next sequence
number; a definition for the current sequence number must match the
committed definition exactly.  Returns the result paired with the final
org state (the public state is only read).  The nil-able
`localPackageHash` byte slice is embedded as `Option (List Nat)`; the Go
function's early returns are embedded by having every validation-failure
arm yield the error with the untouched org state, and both surviving
arms continue with `approveOrgWrites`. -/
def ExternalFunctions.ApproveChaincodeDefinitionForOrg (name : String)
    (cd : ChaincodeDefinition) (localPackageHash : Option (List Nat))
    (publicState orgState : LState) : Except String Unit × LState :=
  match Serializer.DeserializeFieldAsInt64 NamespacesName name "Sequence" publicState with
  | .error e => (.error ("could not get current sequence: " ++ e), orgState)
  | .ok currentSequence =>
    if currentSequence = cd.Sequence ∧ cd.Sequence = 0 then
      (.error "requested sequence is 0, but first definable sequence number is 1",
        orgState)
    else if cd.Sequence < currentSequence then
      (.error ("currently defined sequence " ++ toString currentSequence
        ++ " is larger than requested sequence " ++ toString cd.Sequence),
        orgState)
    else if cd.Sequence > currentSequence + 1 then
      (.error ("requested sequence " ++ toString cd.Sequence
        ++ " is larger than the next available sequence number "
        ++ toString (currentSequence + 1)), orgState)
    else if cd.Sequence = currentSequence then
      match Serializer.DeserializeMetadata NamespacesName name publicState with
      | .error e => (.error ("could not fetch metadata for current definition: " ++ e), orgState)
      | .ok none =>
        (.error ("missing metadata for currently committed sequence number ("
          ++ toString currentSequence ++ ")"), orgState)
      | .ok (some metadata) =>
        match Serializer.DeserializeDefinition NamespacesName name metadata publicState with
        | .error e => (.error ("could not deserialize namespace as chaincode: " ++ e), orgState)
        | .ok definedChaincode =>
          match definedChaincode.Parameters.Equal cd.Parameters with
          | .error e =>
            (.error ("attempted to define the current sequence for namespace, but: " ++ e),
              orgState)
          | .ok () => ExternalFunctions.approveOrgWrites name cd localPackageHash orgState
    else ExternalFunctions.approveOrgWrites name cd localPackageHash orgState

/-- `ExternalFunctions.QueryChaincodeDefinition`: return the defined
chaincode by name, or an error when it is not defined. -/
def ExternalFunctions.QueryChaincodeDefinition (name : String)
    (publicState : LState) : Except String ChaincodeDefinition :=
  match Serializer.DeserializeMetadata NamespacesName name publicState with
  | .error e => .error ("could not fetch metadata for namespace: " ++ e)
  | .ok none => .error ("namespace " ++ name ++ " is not defined")
  | .ok (some metadata) =>
    match Serializer.DeserializeDefinition NamespacesName name metadata publicState with
    | .error e => .error ("could not deserialize namespace as chaincode: " ++ e)
    | .ok d => .ok d

/-- `ExternalFunctions.QueryNamespaceDefinitions`: list the publicly
defined namespaces, mapping each type tag to its human-facing label; an
unrecognized tag passes through verbatim.  The Go `map[string]string` is
embedded as an association list. -/
def ExternalFunctions.QueryNamespaceDefinitions (publicState : LState) :
    Except String (List (String × String)) :=
  match Serializer.DeserializeAllMetadata NamespacesName publicState with
  | .error e => .error ("could not query namespace metadata: " ++ e)
  | .ok metadatas =>
    .ok (metadatas.map (fun kv =>
      (kv.1, if kv.2 = ChaincodeDefinitionType then FriendlyChaincodeDefinitionType else kv.2)))

/-- Modelled from the spec: the parsed form of an install package; only
the metadata handed to the install listener is relevant here. -/
structure ParsedPackage where
  Metadata : String
deriving DecidableEq, Repr

/-- Modelled from the spec: the external package store's persisted state;
`failSave` models a failing save (§7 storage errors).  The content hash
is modelled abstractly as the package bytes themselves (hashing is out
of the specification's scope). -/
structure StoreState where
  saved : List (String × String × List Nat)
  failSave : Bool
deriving DecidableEq, Repr

/-- Modelled from the spec: `ChaincodeStore.Save` — persist the raw
package and return its content hash. -/
def StoreState.Save (st : StoreState) (name version : String)
    (pkg : List Nat) : Except String (List Nat × StoreState) :=
  if st.failSave then .error "could not save package"
  else .ok (pkg, { st with saved := (name, version, pkg) :: st.saved })

/-- An observable install-listener notification
(`InstallListener.HandleChaincodeInstalled`). -/
inductive InstallEvent where
  | installed (metadata : String) (hash : List Nat)
deriving DecidableEq, Repr

/-- `ExternalFunctions.InstallChaincode`: parse the package (rejecting it
before any persistence when malformed), save it to the store, and notify
a registered install listener.  The injected `PackageParser` is passed
as a function, the nullable listener as `hasListener`; listener
notifications are returned as an event list. -/
def ExternalFunctions.InstallChaincode
    (parse : List Nat → Except String ParsedPackage) (hasListener : Bool)
    (name version : String) (chaincodeInstallPackage : List Nat)
    (store : StoreState) :
    Except String (List Nat) × StoreState × List InstallEvent :=
  match parse chaincodeInstallPackage with
  | .error e =>
    (.error ("could not parse as a chaincode install package: " ++ e), store, [])
  | .ok pkg =>
    match store.Save name version chaincodeInstallPackage with
    | .error e => (.error ("could not save cc install package: " ++ e), store, [])
    | .ok (hash, store1) =>
      (.ok hash, store1,
        if hasListener then [.installed pkg.Metadata hash] else [])

/-! Sample data used by the witness theorems. -/

/-- Sample endorsement info. -/
def sampleEndorsement : ChaincodeEndorsementInfo :=
  { Version := "1.0", EndorsementPlugin := "escc", InitRequired := false }

/-- Sample validation info. -/
def sampleValidation : ChaincodeValidationInfo :=
  { ValidationPlugin := "vscc", ValidationParameter := [1, 2] }

/-- Sample chaincode parameters. -/
def sampleParams : ChaincodeParameters :=
  { EndorsementInfo := sampleEndorsement, ValidationInfo := sampleValidation,
    Collections := none }

/-- Sample chaincode parameters differing from `sampleParams` in the
version string. -/
def sampleParamsV2 : ChaincodeParameters :=
  { EndorsementInfo := { sampleEndorsement with Version := "2.0" },
    ValidationInfo := sampleValidation, Collections := none }

/-- Sample chaincode definition at a given sequence number. -/
def sampleDefAt (seq : Int) : ChaincodeDefinition :=
  { Sequence := seq, EndorsementInfo := sampleEndorsement,
    ValidationInfo := sampleValidation, Collections := none }

/-- The empty state view. -/
def emptyLState : LState := { entries := [], failWrites := [] }

/-- A public state in which `mycc` is committed at sequence 1 with
`sampleParams`. -/
def committedState : LState :=
  { entries := [((NamespacesName, "mycc"), .defn (sampleDefAt 1))],
    failWrites := [] }

/-- An org state that has approved `mycc` at sequence 1 with
`sampleParams`. -/
def approvedOrgState : LState :=
  { entries := [((NamespacesName, "mycc#1"), .params sampleParams)],
    failWrites := [] }

/-- A public state in which `mycc` is a namespace of a non-chaincode
datatype. -/
def tokenState : LState :=
  { entries := [((NamespacesName, "mycc"), .other "TokenManagementSystem")],
    failWrites := [] }

/-- A public state holding one chaincode definition and one namespace of
an unrecognized datatype. -/
def mixedState : LState :=
  { entries := [((NamespacesName, "mycc"), .defn (sampleDefAt 1)),
                ((NamespacesName, "tms"), .other "TokenManagementSystem")],
    failWrites := [] }

/-! Helper lemmas about the state model. -/

lemma find?_filter_of_imp {α : Type} (p q : α → Bool) (l : List α)
    (h : ∀ a, p a = true → q a = true) :
    (l.filter q).find? p = l.find? p := by
  induction l with
  | nil => rfl
  | cons a l ih =>
    by_cases hq : q a = true
    · by_cases hp : p a = true
      · simp [List.filter_cons, hq, List.find?_cons, hp]
      · simp [List.filter_cons, hq, List.find?_cons, hp, ih]
    · have hp : ¬ p a = true := fun hpa => hq (h a hpa)
      simp [List.filter_cons, hq, List.find?_cons, hp, ih]

lemma lookup_set_self (st : LState) (ns key : String) (r : StoredRecord) :
    (st.set ns key r).lookup ns key = some r := by
  simp [LState.set, LState.lookup, List.find?_cons]

lemma lookup_set_ne (st : LState) (ns key ns' key' : String) (r : StoredRecord)
    (h : (ns', key') ≠ (ns, key)) :
    (st.set ns key r).lookup ns' key' = st.lookup ns' key' := by
  unfold LState.set LState.lookup
  simp only [List.find?_cons]
  have hcond : (decide (((ns, key), r).1 = (ns', key'))) = false := by
    simp only [decide_eq_false_iff_not]
    exact fun hc => h hc.symm
  rw [hcond]
  congr 1
  apply find?_filter_of_imp
  intro a ha
  simp only [decide_eq_true_eq] at ha ⊢
  rw [ha]
  exact h

lemma set_failWrites (st : LState) (ns key : String) (r : StoredRecord) :
    (st.set ns key r).failWrites = st.failWrites := rfl

/-- The computed per-org agreement bit is true exactly when the org's
private slot holds exactly the candidate parameters. -/
lemma isSerialized_agree (ns key : String) (cp : ChaincodeParameters)
    (st : LState) :
    (match Serializer.IsSerialized ns key cp st with
      | .ok m => m
      | .error _ => false) = true ↔
    st.lookup ns key = some (.params cp) := by
  unfold Serializer.IsSerialized
  cases h : st.lookup ns key with
  | none => simp
  | some r => cases r <;> simp_all

/-- With no failing write slots, the write phase of an approval always
succeeds. -/
lemma approveOrgWrites_no_fail (name : String) (cd : ChaincodeDefinition)
    (hash : Option (List Nat)) (org : LState) (hfail : org.failWrites = []) :
    (ExternalFunctions.approveOrgWrites name cd hash org).1 = .ok () := by
  unfold ExternalFunctions.approveOrgWrites
  cases hash with
  | none => simp [Serializer.Serialize, hfail]
  | some h => simp [Serializer.Serialize, hfail, set_failWrites]

/-- `ChaincodeParameters.Equal` succeeds exactly on the field-by-field
equalities it checks (note: `InitRequired` is not among them). -/
lemma equal_ok_iff (cp ocp : ChaincodeParameters) :
    cp.Equal ocp = .ok () ↔
      (cp.EndorsementInfo.Version = ocp.EndorsementInfo.Version ∧
       cp.EndorsementInfo.EndorsementPlugin = ocp.EndorsementInfo.EndorsementPlugin ∧
       cp.ValidationInfo.ValidationPlugin = ocp.ValidationInfo.ValidationPlugin ∧
       cp.ValidationInfo.ValidationParameter = ocp.ValidationInfo.ValidationParameter ∧
       cp.Collections = ocp.Collections) := by
  unfold ChaincodeParameters.Equal
  repeat' split
  all_goals simp_all

/-! Claim theorems. -/

/-- C1: every call to `CommitChaincodeDefinition` whose definition's
`Sequence` differs from the current public sequence of the name plus 1
(the current sequence being 0 when the namespace is undefined) returns an
error and performs no write to the public state. -/
theorem c1_commit_sequence_mismatch_rejected_without_write
    (name : String) (cd : ChaincodeDefinition) (pub : LState)
    (orgs : List LState) (c : Int)
    (hseq : Serializer.DeserializeFieldAsInt64 NamespacesName name "Sequence" pub = .ok c)
    (hne : cd.Sequence ≠ c + 1) :
    (∃ e, (ExternalFunctions.CommitChaincodeDefinition name cd pub orgs).1 = .error e) ∧
    (ExternalFunctions.CommitChaincodeDefinition name cd pub orgs).2 = pub := by
  unfold ExternalFunctions.CommitChaincodeDefinition
  rw [hseq]
  simp [hne]

/-- C1 witness: committing sequence 3 to an undefined namespace (current
sequence 0) fails and leaves the public state unchanged. -/
theorem c1_commit_sequence_mismatch_witness :
    (∃ e, (ExternalFunctions.CommitChaincodeDefinition "mycc" (sampleDefAt 3)
      emptyLState []).1 = .error e) ∧
    (ExternalFunctions.CommitChaincodeDefinition "mycc" (sampleDefAt 3)
      emptyLState []).2 = emptyLState :=
  c1_commit_sequence_mismatch_rejected_without_write "mycc" (sampleDefAt 3)
    emptyLState [] 0 rfl (by decide)

/-- C2: every call to `ApproveChaincodeDefinitionForOrg` with requested
sequence R and current public sequence C (0 when undefined) such that
(R = 0 and C = 0), or R < C, or R > C + 1, returns an error and produces
no write to the org state. -/
theorem c2_approve_out_of_range_rejected_without_write
    (name : String) (cd : ChaincodeDefinition) (hash : Option (List Nat))
    (pub org : LState) (c : Int)
    (hseq : Serializer.DeserializeFieldAsInt64 NamespacesName name "Sequence" pub = .ok c)
    (hbad : (cd.Sequence = 0 ∧ c = 0) ∨ cd.Sequence < c ∨ cd.Sequence > c + 1) :
    (∃ e, (ExternalFunctions.ApproveChaincodeDefinitionForOrg name cd hash pub org).1
      = .error e) ∧
    (ExternalFunctions.ApproveChaincodeDefinitionForOrg name cd hash pub org).2 = org := by
  unfold ExternalFunctions.ApproveChaincodeDefinitionForOrg
  rw [hseq]
  rcases hbad with ⟨h1, h2⟩ | h | h
  · simp [h1, h2]
  · have h1 : ¬ (c = cd.Sequence ∧ cd.Sequence = 0) := by omega
    simp [h1, h]
  · have h1 : ¬ (c = cd.Sequence ∧ cd.Sequence = 0) := by omega
    have h2 : ¬ cd.Sequence < c := by omega
    simp [h1, h2, h]

/-- C2 witness: approving sequence 0 on an undefined namespace, approving
sequence 1 below a committed sequence 2, and approving sequence 3 above
the next committable sequence 2, all fail without writing. -/
theorem c2_approve_out_of_range_witness :
    ((∃ e, (ExternalFunctions.ApproveChaincodeDefinitionForOrg "mycc" (sampleDefAt 0)
        none emptyLState emptyLState).1 = .error e) ∧
     (ExternalFunctions.ApproveChaincodeDefinitionForOrg "mycc" (sampleDefAt 0)
        none emptyLState emptyLState).2 = emptyLState) ∧
    ((∃ e, (ExternalFunctions.ApproveChaincodeDefinitionForOrg "mycc" (sampleDefAt 3)
        none committedState emptyLState).1 = .error e) ∧
     (ExternalFunctions.ApproveChaincodeDefinitionForOrg "mycc" (sampleDefAt 3)
        none committedState emptyLState).2 = emptyLState) :=
  ⟨c2_approve_out_of_range_rejected_without_write "mycc" (sampleDefAt 0) none
      emptyLState emptyLState 0 rfl (Or.inl (by decide)),
   c2_approve_out_of_range_rejected_without_write "mycc" (sampleDefAt 3) none
      committedState emptyLState 1 rfl (Or.inr (Or.inr (by decide)))⟩

/-- C3: re-approving the currently committed sequence (both nonzero)
succeeds exactly when the proposed parameters agree with the committed
definition on the version, endorsement plugin, validation plugin,
validation parameter bytes and collections; otherwise the call errors.
The hypothesis `hfail` rules out storage write failures, which are not
part of the validation contract. -/
theorem c3_reapproval_succeeds_iff_parameters_match
    (name : String) (cd d : ChaincodeDefinition) (hash : Option (List Nat))
    (pub org : LState)
    (hpub : pub.lookup NamespacesName name = some (.defn d))
    (hreq : cd.Sequence = d.Sequence)
    (hnz : cd.Sequence ≠ 0)
    (hfail : org.failWrites = []) :
    (ExternalFunctions.ApproveChaincodeDefinitionForOrg name cd hash pub org).1
        = .ok () ↔
      (cd.EndorsementInfo.Version = d.EndorsementInfo.Version ∧
       cd.EndorsementInfo.EndorsementPlugin = d.EndorsementInfo.EndorsementPlugin ∧
       cd.ValidationInfo.ValidationPlugin = d.ValidationInfo.ValidationPlugin ∧
       cd.ValidationInfo.ValidationParameter = d.ValidationInfo.ValidationParameter ∧
       cd.Collections = d.Collections) := by
  have hseq : Serializer.DeserializeFieldAsInt64 NamespacesName name "Sequence" pub
      = .ok d.Sequence := by
    simp [Serializer.DeserializeFieldAsInt64, hpub, StoredRecord.seqFieldOf]
  have hmeta : Serializer.DeserializeMetadata NamespacesName name pub
      = .ok (some "ChaincodeDefinition") := by
    simp [Serializer.DeserializeMetadata, hpub, StoredRecord.metadataOf]
  have hdeser : Serializer.DeserializeDefinition NamespacesName name
      "ChaincodeDefinition" pub = .ok d := by
    simp [Serializer.DeserializeDefinition, hpub, ChaincodeDefinitionType]
  have h1 : ¬ (d.Sequence = cd.Sequence ∧ cd.Sequence = 0) := by omega
  have h2 : ¬ cd.Sequence < d.Sequence := by omega
  have h3 : ¬ cd.Sequence > d.Sequence + 1 := by omega
  have h0 : ¬ d.Sequence = 0 := by omega
  have hiff : ChaincodeParameters.Equal d.Parameters cd.Parameters = .ok () ↔
      (cd.EndorsementInfo.Version = d.EndorsementInfo.Version ∧
       cd.EndorsementInfo.EndorsementPlugin = d.EndorsementInfo.EndorsementPlugin ∧
       cd.ValidationInfo.ValidationPlugin = d.ValidationInfo.ValidationPlugin ∧
       cd.ValidationInfo.ValidationParameter = d.ValidationInfo.ValidationParameter ∧
       cd.Collections = d.Collections) := by
    rw [equal_ok_iff]
    unfold ChaincodeDefinition.Parameters
    constructor
    · exact fun h => ⟨h.1.symm, h.2.1.symm, h.2.2.1.symm, h.2.2.2.1.symm, h.2.2.2.2.symm⟩
    · exact fun h => ⟨h.1.symm, h.2.1.symm, h.2.2.1.symm, h.2.2.2.1.symm, h.2.2.2.2.symm⟩
  rw [← hiff]
  unfold ExternalFunctions.ApproveChaincodeDefinitionForOrg
  rw [hseq]
  cases hE : ChaincodeParameters.Equal d.Parameters cd.Parameters with
  | error e =>
    simp [h1, h2, h3, h0, hreq, hmeta, hdeser, hE]
  | ok u =>
    cases u
    simp [h1, h2, h3, h0, hreq, hmeta, hdeser, hE,
      approveOrgWrites_no_fail name cd hash org hfail]

/-- C3 witness: re-approving `mycc` at the committed sequence 1 with the
committed parameters succeeds, and the matching field equalities hold. -/
theorem c3_reapproval_witness :
    ((ExternalFunctions.ApproveChaincodeDefinitionForOrg "mycc" (sampleDefAt 1)
        none committedState emptyLState).1 = .ok () ↔
      ((sampleDefAt 1).EndorsementInfo.Version = (sampleDefAt 1).EndorsementInfo.Version ∧
       (sampleDefAt 1).EndorsementInfo.EndorsementPlugin = (sampleDefAt 1).EndorsementInfo.EndorsementPlugin ∧
       (sampleDefAt 1).ValidationInfo.ValidationPlugin = (sampleDefAt 1).ValidationInfo.ValidationPlugin ∧
       (sampleDefAt 1).ValidationInfo.ValidationParameter = (sampleDefAt 1).ValidationInfo.ValidationParameter ∧
       (sampleDefAt 1).Collections = (sampleDefAt 1).Collections)) :=
  c3_reapproval_succeeds_iff_parameters_match "mycc" (sampleDefAt 1) (sampleDefAt 1)
    none committedState emptyLState (by decide) rfl (by decide) rfl

/-- C4: when `CommitChaincodeDefinition` passes the sequence check and
returns an agreement slice, the slice has one entry per supplied org
state, positionally aligned, and entry `i` is true exactly when org
`i`'s private slot at `name#Sequence` holds exactly the proposed
parameters — any read failure (absence, decode error, type mismatch)
shows up as `false`, never as an error. -/
theorem c4_commit_agreement_positional
    (name : String) (cd : ChaincodeDefinition) (pub : LState)
    (orgs : List LState) (agreement : List Bool)
    (hok : (ExternalFunctions.CommitChaincodeDefinition name cd pub orgs).1
      = .ok agreement) :
    agreement.length = orgs.length ∧
    ∀ i (hi : i < orgs.length) (hia : i < agreement.length),
      agreement.get ⟨i, hia⟩ = true ↔
        (orgs.get ⟨i, hi⟩).lookup NamespacesName (privateKey name cd.Sequence)
          = some (.params cd.Parameters) := by
  unfold ExternalFunctions.CommitChaincodeDefinition at hok
  cases hseq : Serializer.DeserializeFieldAsInt64 NamespacesName name "Sequence" pub with
  | error e => simp only [hseq] at hok; simp at hok
  | ok c =>
    simp only [hseq] at hok
    by_cases hne : cd.Sequence ≠ c + 1
    · rw [if_pos hne] at hok; exact absurd hok (by simp)
    · rw [if_neg hne] at hok
      cases hser : Serializer.Serialize NamespacesName name (.defn cd) pub with
      | error e => simp only [hser] at hok; exact absurd hok (by simp)
      | ok st =>
        simp only [hser] at hok
        simp only [Except.ok.injEq] at hok
        subst hok
        refine ⟨by simp, ?_⟩
        intro i hi hia
        rw [List.get_eq_getElem, List.get_eq_getElem, List.getElem_map]
        exact isSerialized_agree NamespacesName (privateKey name cd.Sequence)
          cd.Parameters (orgs.get ⟨i, hi⟩)

/-- C4 witness: committing sequence 1 of `mycc` with one org that
approved the proposed parameters and one that never approved yields the
agreement slice `[true, false]`, and the stated equivalence holds at both
indices. -/
theorem c4_commit_agreement_witness :
    ([true, false].length = [approvedOrgState, emptyLState].length) ∧
    ([true, false].get ⟨0, by decide⟩ = true ↔
      ([approvedOrgState, emptyLState].get ⟨0, by decide⟩).lookup NamespacesName
        (privateKey "mycc" (sampleDefAt 1).Sequence)
        = some (.params (sampleDefAt 1).Parameters)) ∧
    ([true, false].get ⟨1, by decide⟩ = true ↔
      ([approvedOrgState, emptyLState].get ⟨1, by decide⟩).lookup NamespacesName
        (privateKey "mycc" (sampleDefAt 1).Sequence)
        = some (.params (sampleDefAt 1).Parameters)) :=
  ⟨(c4_commit_agreement_positional "mycc" (sampleDefAt 1) emptyLState
      [approvedOrgState, emptyLState] [true, false] rfl).1,
   (c4_commit_agreement_positional "mycc" (sampleDefAt 1) emptyLState
      [approvedOrgState, emptyLState] [true, false] rfl).2 0
      (by decide) (by decide),
   (c4_commit_agreement_positional "mycc" (sampleDefAt 1) emptyLState
      [approvedOrgState, emptyLState] [true, false] rfl).2 1
      (by decide) (by decide)⟩

/-- C5: once the sequence check passes, `CommitChaincodeDefinition`
writes the full proposed definition (sequence and parameters) into the
public namespace under the chaincode name, whatever the org states are;
and any error returned after sequence validation can only come from a
failing public write. -/
theorem c5_commit_always_writes_public_definition
    (name : String) (cd : ChaincodeDefinition) (pub : LState)
    (orgs : List LState) (c : Int)
    (hseq : Serializer.DeserializeFieldAsInt64 NamespacesName name "Sequence" pub = .ok c)
    (hnext : cd.Sequence = c + 1) :
    ((NamespacesName, name) ∉ pub.failWrites →
      (∃ ag, (ExternalFunctions.CommitChaincodeDefinition name cd pub orgs).1 = .ok ag) ∧
      (ExternalFunctions.CommitChaincodeDefinition name cd pub orgs).2
        = pub.set NamespacesName name (.defn cd)) ∧
    (∀ e, (ExternalFunctions.CommitChaincodeDefinition name cd pub orgs).1 = .error e →
      (NamespacesName, name) ∈ pub.failWrites) := by
  have hne : ¬ cd.Sequence ≠ c + 1 := by omega
  constructor
  · intro hnf
    unfold ExternalFunctions.CommitChaincodeDefinition
    rw [hseq]
    simp [hne, Serializer.Serialize, hnf]
  · intro e he
    by_contra hnf
    unfold ExternalFunctions.CommitChaincodeDefinition at he
    rw [hseq] at he
    simp [hne, Serializer.Serialize, hnf] at he

/-- C5 witness: committing sequence 2 of `mycc` over the committed
sequence 1 with two org states, neither of which approved sequence 2,
still succeeds and installs the full proposed definition in the public
state. -/
theorem c5_commit_always_writes_witness :
    (∃ ag, (ExternalFunctions.CommitChaincodeDefinition "mycc" (sampleDefAt 2)
      committedState [approvedOrgState, emptyLState]).1 = .ok ag) ∧
    (ExternalFunctions.CommitChaincodeDefinition "mycc" (sampleDefAt 2)
      committedState [approvedOrgState, emptyLState]).2
      = committedState.set NamespacesName "mycc" (.defn (sampleDefAt 2)) :=
  (c5_commit_always_writes_public_definition "mycc" (sampleDefAt 2) committedState
    [approvedOrgState, emptyLState] 1 rfl (by decide)).1 (by decide)

/-- A successful `Serialize` produces exactly the overwrite of the target
slot. -/
lemma serialize_ok_eq (ns key : String) (r : StoredRecord) (st st' : LState)
    (h : Serializer.Serialize ns key r st = .ok st') :
    st' = st.set ns key r := by
  unfold Serializer.Serialize at h
  split at h
  · exact absurd h (by simp)
  · simpa using h.symm

/-- Every run of `ApproveChaincodeDefinitionForOrg` either fails
validation, returning the error with the untouched org state, or reaches
the write phase. -/
lemma approve_cases (name : String) (cd : ChaincodeDefinition)
    (hash : Option (List Nat)) (pub org : LState) :
    (∃ e, ExternalFunctions.ApproveChaincodeDefinitionForOrg name cd hash pub org
        = (.error e, org)) ∨
    ExternalFunctions.ApproveChaincodeDefinitionForOrg name cd hash pub org
      = ExternalFunctions.approveOrgWrites name cd hash org := by
  unfold ExternalFunctions.ApproveChaincodeDefinitionForOrg
  repeat' split
  all_goals first
    | exact Or.inl ⟨_, rfl⟩
    | exact Or.inr rfl

/-- C6: an accepted approval writes the chaincode parameters to the
org's private scope at `name#requestedSequence`, overwriting any prior
entry; the chaincode-sources scope receives a local-package record at
the same key exactly when a package hash is supplied, and is left
completely untouched when none is. -/
theorem c6_approve_accepted_writes
    (name : String) (cd : ChaincodeDefinition) (hash : Option (List Nat))
    (pub org : LState)
    (hok : (ExternalFunctions.ApproveChaincodeDefinitionForOrg name cd hash pub org).1
      = .ok ()) :
    (ExternalFunctions.ApproveChaincodeDefinitionForOrg name cd hash pub org).2.lookup
        NamespacesName (privateKey name cd.Sequence) = some (.params cd.Parameters) ∧
    (∀ h, hash = some h →
      (ExternalFunctions.ApproveChaincodeDefinitionForOrg name cd hash pub org).2.lookup
        ChaincodeSourcesName (privateKey name cd.Sequence)
        = some (.localPkg { Hash := h })) ∧
    (hash = none →
      ∀ key, (ExternalFunctions.ApproveChaincodeDefinitionForOrg name cd hash pub org).2.lookup
        ChaincodeSourcesName key = org.lookup ChaincodeSourcesName key) := by
  rcases approve_cases name cd hash pub org with ⟨e, he⟩ | heq
  · rw [he] at hok
    exact absurd hok (by simp)
  · rw [heq] at hok ⊢
    unfold ExternalFunctions.approveOrgWrites at hok ⊢
    cases hs1 : Serializer.Serialize NamespacesName (privateKey name cd.Sequence)
        (.params cd.Parameters) org with
    | error e => simp only [hs1] at hok; simp at hok
    | ok org1 =>
      have horg1 : org1 = org.set NamespacesName (privateKey name cd.Sequence)
          (.params cd.Parameters) := serialize_ok_eq _ _ _ _ _ hs1
      cases hash with
      | none =>
        simp only [hs1]
        refine ⟨?_, ?_, ?_⟩
        · simp [horg1, lookup_set_self]
        · intro h hcontra
          cases hcontra
        · intro _ key
          simp only [horg1]
          exact lookup_set_ne org NamespacesName (privateKey name cd.Sequence)
            ChaincodeSourcesName key (.params cd.Parameters)
            (fun hc => absurd (congrArg Prod.fst hc)
              (show ¬ ChaincodeSourcesName = NamespacesName by decide))
      | some h =>
        simp only [hs1] at hok ⊢
        cases hs2 : Serializer.Serialize ChaincodeSourcesName (privateKey name cd.Sequence)
            (.localPkg { Hash := h }) org1 with
        | error e => simp only [hs2] at hok; simp at hok
        | ok org2 =>
          have horg2 : org2 = org1.set ChaincodeSourcesName (privateKey name cd.Sequence)
              (.localPkg { Hash := h }) := serialize_ok_eq _ _ _ _ _ hs2
          simp only [hs2]
          refine ⟨?_, ?_, ?_⟩
          · rw [horg2, lookup_set_ne org1 ChaincodeSourcesName (privateKey name cd.Sequence)
              NamespacesName (privateKey name cd.Sequence) (.localPkg { Hash := h })
              (fun hc => absurd (congrArg Prod.fst hc)
                (show ¬ NamespacesName = ChaincodeSourcesName by decide)),
              horg1, lookup_set_self]
          · intro h2 hh2
            cases hh2
            rw [horg2, lookup_set_self]
          · intro hcontra
            cases hcontra

/-- C6 witness: approving sequence 2 of `mycc` with a package hash
writes both the parameters entry and the package entry; approving
without a hash leaves the chaincode-sources scope untouched. -/
theorem c6_approve_accepted_writes_witness :
    ((ExternalFunctions.ApproveChaincodeDefinitionForOrg "mycc" (sampleDefAt 2)
        (some [9]) committedState emptyLState).2.lookup NamespacesName
        (privateKey "mycc" (sampleDefAt 2).Sequence)
        = some (.params (sampleDefAt 2).Parameters)) ∧
    ((ExternalFunctions.ApproveChaincodeDefinitionForOrg "mycc" (sampleDefAt 2)
        (some [9]) committedState emptyLState).2.lookup ChaincodeSourcesName
        (privateKey "mycc" (sampleDefAt 2).Sequence)
        = some (.localPkg { Hash := [9] })) ∧
    ((ExternalFunctions.ApproveChaincodeDefinitionForOrg "mycc" (sampleDefAt 2)
        none committedState approvedOrgState).2.lookup ChaincodeSourcesName "mycc#1"
        = approvedOrgState.lookup ChaincodeSourcesName "mycc#1") :=
  ⟨(c6_approve_accepted_writes "mycc" (sampleDefAt 2) (some [9]) committedState
      emptyLState rfl).1,
   (c6_approve_accepted_writes "mycc" (sampleDefAt 2) (some [9]) committedState
      emptyLState rfl).2.1 [9] rfl,
   (c6_approve_accepted_writes "mycc" (sampleDefAt 2) none committedState
      approvedOrgState rfl).2.2 rfl "mycc#1"⟩

/-- C7: when the org state has no failing write slots — so that every
error return is a validation error (zero sequence, superseded or skipped
sequence, metadata fetch failure, deserialization failure, or parameter
mismatch on re-approval) — an erroring
`ApproveChaincodeDefinitionForOrg` leaves the org state unchanged: all
validation completes before the first write. -/
theorem c7_approve_error_leaves_org_unchanged
    (name : String) (cd : ChaincodeDefinition) (hash : Option (List Nat))
    (pub org : LState) (e : String)
    (hfail : org.failWrites = [])
    (herr : (ExternalFunctions.ApproveChaincodeDefinitionForOrg name cd hash pub org).1
      = .error e) :
    (ExternalFunctions.ApproveChaincodeDefinitionForOrg name cd hash pub org).2 = org := by
  rcases approve_cases name cd hash pub org with ⟨e2, he⟩ | heq
  · rw [he]
  · rw [heq] at herr
    rw [approveOrgWrites_no_fail name cd hash org hfail] at herr
    exact absurd herr (by simp)

/-- C7 witness: the parameter-mismatch rejection of a re-approval at the
committed sequence leaves the org state unchanged. -/
theorem c7_approve_error_witness :
    (ExternalFunctions.ApproveChaincodeDefinitionForOrg "mycc"
      { sampleDefAt 1 with
        EndorsementInfo := { sampleEndorsement with Version := "2.0" } }
      none committedState approvedOrgState).2 = approvedOrgState :=
  c7_approve_error_leaves_org_unchanged "mycc"
    { sampleDefAt 1 with
      EndorsementInfo := { sampleEndorsement with Version := "2.0" } }
    none committedState approvedOrgState
    "attempted to define the current sequence for namespace, but: Version mismatch"
    rfl rfl

/-- C8: absence of a namespace's public metadata is handled
asymmetrically: `ChaincodeDefinitionIfDefined` reports an undefined name
as the normal negative result `(false, nil)` with no error while
`QueryChaincodeDefinition` reports it as an error; and metadata that is
present under a non-chaincode type tag makes
`ChaincodeDefinitionIfDefined` fail rather than report a negative
result.  The reserved lifecycle namespace is excluded, being implicitly
always defined. -/
theorem c8_absence_asymmetry (name : String) (pub : LState)
    (hname : name ≠ LifecycleNamespace) :
    (Serializer.DeserializeMetadata NamespacesName name pub = .ok none →
      Resources.ChaincodeDefinitionIfDefined name pub = .ok (false, none) ∧
      ∃ e, ExternalFunctions.QueryChaincodeDefinition name pub = .error e) ∧
    (∀ tag, Serializer.DeserializeMetadata NamespacesName name pub = .ok (some tag) →
      tag ≠ ChaincodeDefinitionType →
      ∃ e, Resources.ChaincodeDefinitionIfDefined name pub = .error e) := by
  constructor
  · intro habs
    constructor
    · simp [Resources.ChaincodeDefinitionIfDefined, hname, habs]
    · simp [ExternalFunctions.QueryChaincodeDefinition, habs]
  · intro tag hmeta htag
    simp [Resources.ChaincodeDefinitionIfDefined, hname, hmeta, htag]

/-- C8 witness: `mycc` undefined in the empty public state gives the
negative result from `ChaincodeDefinitionIfDefined` and an error from
`QueryChaincodeDefinition`; `mycc` stored under the tag
`TokenManagementSystem` makes `ChaincodeDefinitionIfDefined` fail. -/
theorem c8_absence_asymmetry_witness :
    (Resources.ChaincodeDefinitionIfDefined "mycc" emptyLState = .ok (false, none) ∧
     ∃ e, ExternalFunctions.QueryChaincodeDefinition "mycc" emptyLState = .error e) ∧
    (∃ e, Resources.ChaincodeDefinitionIfDefined "mycc" tokenState = .error e) :=
  ⟨(c8_absence_asymmetry "mycc" emptyLState (by decide)).1 rfl,
   (c8_absence_asymmetry "mycc" tokenState (by decide)).2
     "TokenManagementSystem" rfl (by decide)⟩

/-- C9: `InstallChaincode` rejects a package that fails to parse before
any persistence (the store state is untouched and no listener event
fires); on successful parse and save it returns the store's content
hash, the raw package is persisted, and a registered listener is
notified exactly once with the parsed metadata and the hash (and a
listener-less install notifies nobody); a save failure also leaves the
store unchanged and fires no event. -/
theorem c9_install_parse_save_listener
    (parse : List Nat → Except String ParsedPackage) (hasListener : Bool)
    (name version : String) (pkg : List Nat) (store : StoreState) :
    (∀ e, parse pkg = .error e →
      (∃ e2, (ExternalFunctions.InstallChaincode parse hasListener name version pkg
        store).1 = .error e2) ∧
      (ExternalFunctions.InstallChaincode parse hasListener name version pkg
        store).2.1 = store ∧
      (ExternalFunctions.InstallChaincode parse hasListener name version pkg
        store).2.2 = []) ∧
    (∀ p, parse pkg = .ok p → ∀ hash store1,
      store.Save name version pkg = .ok (hash, store1) →
      (ExternalFunctions.InstallChaincode parse hasListener name version pkg
        store).1 = .ok hash ∧
      (ExternalFunctions.InstallChaincode parse hasListener name version pkg
        store).2.1 = store1 ∧
      (ExternalFunctions.InstallChaincode parse hasListener name version pkg
        store).2.1.saved = (name, version, pkg) :: store.saved ∧
      (ExternalFunctions.InstallChaincode parse hasListener name version pkg
        store).2.2 = (if hasListener then [.installed p.Metadata hash] else [])) ∧
    (∀ p, parse pkg = .ok p → ∀ e, store.Save name version pkg = .error e →
      (∃ e2, (ExternalFunctions.InstallChaincode parse hasListener name version pkg
        store).1 = .error e2) ∧
      (ExternalFunctions.InstallChaincode parse hasListener name version pkg
        store).2.1 = store ∧
      (ExternalFunctions.InstallChaincode parse hasListener name version pkg
        store).2.2 = []) := by
  refine ⟨?_, ?_, ?_⟩
  · intro e he
    simp [ExternalFunctions.InstallChaincode, he]
  · intro p hp hash store1 hsave
    have hsave2 : store1.saved = (name, version, pkg) :: store.saved := by
      unfold StoreState.Save at hsave
      split at hsave
      · exact absurd hsave (by simp)
      · cases hsave
        rfl
    simp [ExternalFunctions.InstallChaincode, hp, hsave, hsave2]
  · intro p hp e hsave
    simp [ExternalFunctions.InstallChaincode, hp, hsave]

/-- C9 witness: a malformed package is rejected with no save and no
event; a well-formed package is saved, its hash returned, and the
listener notified once with the parsed metadata and the hash. -/
theorem c9_install_witness :
    ((∃ e2, (ExternalFunctions.InstallChaincode (fun _ => .error "bad") true
        "cc" "v1" [1, 2] { saved := [], failSave := false }).1 = .error e2) ∧
     (ExternalFunctions.InstallChaincode (fun _ => .error "bad") true
        "cc" "v1" [1, 2] { saved := [], failSave := false }).2.1
        = { saved := [], failSave := false } ∧
     (ExternalFunctions.InstallChaincode (fun _ => .error "bad") true
        "cc" "v1" [1, 2] { saved := [], failSave := false }).2.2 = []) ∧
    ((ExternalFunctions.InstallChaincode (fun _ => .ok { Metadata := "md" }) true
        "cc" "v1" [1, 2] { saved := [], failSave := false }).1 = .ok [1, 2] ∧
     (ExternalFunctions.InstallChaincode (fun _ => .ok { Metadata := "md" }) true
        "cc" "v1" [1, 2] { saved := [], failSave := false }).2.1
        = { saved := [("cc", "v1", [1, 2])], failSave := false } ∧
     (ExternalFunctions.InstallChaincode (fun _ => .ok { Metadata := "md" }) true
        "cc" "v1" [1, 2] { saved := [], failSave := false }).2.1.saved
        = ("cc", "v1", [1, 2]) :: ([] : List (String × String × List Nat)) ∧
     (ExternalFunctions.InstallChaincode (fun _ => .ok { Metadata := "md" }) true
        "cc" "v1" [1, 2] { saved := [], failSave := false }).2.2
        = (if true then [.installed "md" [1, 2]] else [])) :=
  ⟨(c9_install_parse_save_listener (fun _ => .error "bad") true "cc" "v1" [1, 2]
      { saved := [], failSave := false }).1 "bad" rfl,
   (c9_install_parse_save_listener (fun _ => .ok { Metadata := "md" }) true "cc"
      "v1" [1, 2] { saved := [], failSave := false }).2.1 { Metadata := "md" }
      rfl [1, 2] { saved := [("cc", "v1", [1, 2])], failSave := false } rfl⟩

/-- C10: whenever the public metadata set is successfully enumerated,
`QueryNamespaceDefinitions` succeeds — an unrecognized type tag never
causes an error — and its result contains every enumerated namespace,
mapped to the friendly name when its tag is the chaincode-definition tag
and to the raw tag verbatim otherwise. -/
theorem c10_query_namespace_definitions_total (pub : LState)
    (ms : List (String × String))
    (henum : Serializer.DeserializeAllMetadata NamespacesName pub = .ok ms) :
    ∃ result, ExternalFunctions.QueryNamespaceDefinitions pub = .ok result ∧
      ∀ kv, kv ∈ ms →
        (kv.2 = ChaincodeDefinitionType →
          (kv.1, FriendlyChaincodeDefinitionType) ∈ result) ∧
        (kv.2 ≠ ChaincodeDefinitionType → (kv.1, kv.2) ∈ result) := by
  unfold ExternalFunctions.QueryNamespaceDefinitions
  rw [henum]
  refine ⟨_, rfl, ?_⟩
  intro kv hkv
  constructor
  · intro htag
    exact List.mem_map.mpr ⟨kv, hkv, by simp [htag]⟩
  · intro htag
    exact List.mem_map.mpr ⟨kv, hkv, by simp [htag]⟩

/-- C10 witness: enumerating a state with one chaincode namespace and one
namespace of the unrecognized tag `TokenManagementSystem` succeeds, the
chaincode namespace surfaces as `Chaincode` and the unrecognized tag
passes through verbatim. -/
theorem c10_query_namespace_definitions_witness :
    ∃ result, ExternalFunctions.QueryNamespaceDefinitions mixedState = .ok result ∧
      ("mycc", FriendlyChaincodeDefinitionType) ∈ result ∧
      ("tms", "TokenManagementSystem") ∈ result :=
  (c10_query_namespace_definitions_total mixedState
    [("mycc", "ChaincodeDefinition"), ("tms", "TokenManagementSystem")] rfl).elim
    (fun r hr => ⟨r, hr.1,
      (hr.2 ("mycc", "ChaincodeDefinition") (by decide)).1 (by decide),
      (hr.2 ("tms", "TokenManagementSystem") (by decide)).2 (by decide)⟩)

end Lifecycle
